import Mathlib

/-!
Shallow embedding of the meeting-client synchronization core: the motion
sub-session event handlers, the pass/fail tally rule, the vote casting
engine, the election sub-session (positions, nominations, closing), and the
token handling of the HTTP and real-time layers.  Each definition mirrors
one function of the client source; theorems at the end settle the stated
properties.
-/

namespace VotingFrontend

/-- A motion as held in the local motion list (`Motion` in ApiService):
identity uuid, owner username, motion text. -/
structure Motion where
  motion_uuid : String
  owner : String
  motion : String
deriving DecidableEq

/-- Payload of a `motion added` / `motion updated` real-time event:
the motion-item id it belongs to and the motion itself. -/
structure MotionEvent where
  motion_item_id : String
  motion : Motion
deriving DecidableEq

/-- The uuid projection of a motion list. -/
def motionUuids (ms : List Motion) : List String :=
  ms.map Motion.motion_uuid

/-- `handleMotionAdded` (MotionManager): if the event is for this motion
item, append the motion unless one with the same uuid is already present;
otherwise leave the list as is. -/
def handleMotionAdded (motionItemId : String) (data : MotionEvent)
    (prev : List Motion) : List Motion :=
  if data.motion_item_id = motionItemId then
    if prev.any (fun m => m.motion_uuid == data.motion.motion_uuid) then prev
    else prev ++ [data.motion]
  else prev

/-- `handleMotionUpdated` (MotionManager): if the event is for this motion
item, replace the entry whose uuid matches the event's motion; otherwise
leave the list as is. -/
def handleMotionUpdated (motionItemId : String) (data : MotionEvent)
    (prev : List Motion) : List Motion :=
  if data.motion_item_id = motionItemId then
    prev.map (fun m =>
      if m.motion_uuid = data.motion.motion_uuid then data.motion else m)
  else prev

/-- A poll-history record attached to a motion item's voting session:
binds a motion uuid to its tallied results (option name to count).
The record map is modelled as an association list. -/
structure PollHistoryRecord where
  motion_uuid : String
  results : List (String × Nat)
deriving DecidableEq

/-- Reading a tally from a record's results: a missing key counts as 0
(the source reads the field with a fallback of 0). -/
def lookupResult (results : List (String × Nat)) (key : String) : Nat :=
  (results.lookup key).getD 0

/-- `didMotionPass` (MotionManager): a motion passed iff its yes tally is
strictly greater than its no tally. -/
def didMotionPass (result : PollHistoryRecord) : Bool :=
  let yesVotes := lookupResult result.results "yes"
  let noVotes := lookupResult result.results "no"
  decide (yesVotes > noVotes)

/-- Poll type tag (`pollType` in ApiService's Poll). -/
inductive PollType where
  | single
  | ranked
deriving DecidableEq

/-- A poll as returned by the voting service: owning meeting, type tag,
ordered option list. -/
structure Poll where
  meeting_id : String
  pollType : PollType
  options : List String
deriving DecidableEq

/-- `handleRankedVote` (VoteManager): toggling an option in the ranking —
an already ranked option is removed, an unranked one is appended. -/
def handleRankedVote (option : String) (prev : List String) : List String :=
  if prev.contains option then prev.filter (fun o => o ≠ option)
  else prev ++ [option]

/-- `moveRankUp` (VoteManager): swap the entry at `index` with the one
above it; index 0 is left unchanged.  The control is only rendered at the
indices of the current ranking, so the out-of-range case is the identity. -/
def moveRankUp (rankedOptions : List String) (index : Nat) : List String :=
  if index = 0 ∨ rankedOptions.length ≤ index then rankedOptions
  else
    ((rankedOptions.set (index - 1) (rankedOptions.getD index "")).set
      index (rankedOptions.getD (index - 1) ""))

/-- `moveRankDown` (VoteManager): swap the entry at `index` with the one
below it; the last index is left unchanged.  The control is only rendered
at the indices of the current ranking, so the out-of-range case is the
identity. -/
def moveRankDown (rankedOptions : List String) (index : Nat) : List String :=
  if rankedOptions.length ≤ index + 1 then rankedOptions
  else
    ((rankedOptions.set index (rankedOptions.getD (index + 1) "")).set
      (index + 1) (rankedOptions.getD index ""))

/-- Local state of the vote casting engine (VoteManager's useState cells). -/
structure VMState where
  poll : Option Poll
  loading : Bool
  error : String
  selectedOption : String
  rankedOptions : List String
  hasVoted : Bool
  submitting : Bool
deriving DecidableEq

/-- The view the engine renders, in the source's guard order: loading,
load error, missing poll, terminal submitted view, or the ballot. -/
inductive VMView where
  | loadingView
  | loadErrorView
  | noPollView
  | submittedView
  | ballotView
deriving DecidableEq

/-- VoteManager's render dispatch: the early returns of the component, in
order; only `ballotView` carries the ballot controls and the submit
button. -/
def renderVM (s : VMState) : VMView :=
  if s.loading then VMView.loadingView
  else if s.error ≠ "" ∧ s.poll = none then VMView.loadErrorView
  else if s.poll = none then VMView.noPollView
  else if s.hasVoted then VMView.submittedView
  else VMView.ballotView

/-- The `fetchPoll` effect on success: store the poll, reset the ranking
for a ranked poll, record the has-voted probe's answer, stop loading.
The probe runs once, as part of this load. -/
def loadPoll (p : Poll) (probedHasVoted : Bool) (s : VMState) : VMState :=
  { s with
    poll := some p
    rankedOptions := if p.pollType = PollType.ranked then [] else s.rankedOptions
    hasVoted := probedHasVoted
    loading := false }

/-- `handleSubmitVote` (VoteManager), with the asynchronous network result
folded in as `serverOk`: returns the state after the handler settles and
the vote payload sent over the network, if any.  An empty ballot for the
poll's type sets an inline error and returns before any call. -/
def handleSubmitVote (s : VMState) (serverOk : Bool) :
    VMState × Option (List String) :=
  match s.poll with
  | none => (s, none)
  | some poll =>
    if poll.pollType = PollType.single then
      if s.selectedOption = "" then
        ({ s with error := "Please select an option" }, none)
      else if serverOk then
        ({ s with hasVoted := true, error := "", submitting := false },
          some [s.selectedOption])
      else
        ({ s with error := "Failed to submit vote", submitting := false },
          some [s.selectedOption])
    else
      if s.rankedOptions = [] then
        ({ s with error := "Please rank at least one option" }, none)
      else if serverOk then
        ({ s with hasVoted := true, error := "", submitting := false },
          some s.rankedOptions)
      else
        ({ s with error := "Failed to submit vote", submitting := false },
          some s.rankedOptions)

/-- A user interaction available on the rendered ballot. -/
inductive VMEvent where
  | selectSingle (o : String)
  | toggleRanked (o : String)
  | rankUp (i : Nat)
  | rankDown (i : Nat)
  | pressSubmit (serverOk : Bool)
deriving DecidableEq

/-- One user interaction against the engine.  Every ballot control —
including the submit button — exists only on the ballot view, so an event
arriving at any other view is a no-op with no network call. -/
def vmStep (s : VMState) (e : VMEvent) : VMState × Option (List String) :=
  if renderVM s ≠ VMView.ballotView then (s, none)
  else
    match e with
    | VMEvent.selectSingle o => ({ s with selectedOption := o }, none)
    | VMEvent.toggleRanked o =>
      ({ s with rankedOptions := handleRankedVote o s.rankedOptions }, none)
    | VMEvent.rankUp i =>
      ({ s with rankedOptions := moveRankUp s.rankedOptions i }, none)
    | VMEvent.rankDown i =>
      ({ s with rankedOptions := moveRankDown s.rankedOptions i }, none)
    | VMEvent.pressSubmit ok => handleSubmitVote s ok

/-- Run a sequence of user interactions, collecting every vote payload
that goes over the network. -/
def vmRun (s : VMState) : List VMEvent → VMState × List (List String)
  | [] => (s, [])
  | e :: es =>
    let next := vmStep s e
    let rest := vmRun next.1 es
    (rest.1, next.2.toList ++ rest.2)

/-- Voting-session state of a motion item. -/
inductive VSState where
  | in_progress
  | completed
  | error
deriving DecidableEq

/-- The MotionManager state the start-voting control depends on. -/
structure MMState where
  meetingId : String
  motionItemId : String
  motions : List Motion
  votingSessionState : Option VSState
  hasManagePermission : Bool
  votingActive : Bool
  activePollId : Option String
deriving DecidableEq

/-- The start-voting request `handleStartVoting` posts
(`startVoting(meetingId, motionItemId)`). -/
structure StartVoteCall where
  meeting_id : String
  agenda_id : String
deriving DecidableEq

/-- Whether the Start Voting button is rendered: the motion-management
view must be showing (no active poll takeover) and the source's guard
`hasManagePermission && motions.length > 0 && !votingSessionState`
must hold. -/
def startVotingButtonRendered (s : MMState) : Bool :=
  !(s.votingActive && s.activePollId.isSome) &&
    (s.hasManagePermission && decide (0 < s.motions.length) &&
      s.votingSessionState.isNone)

/-- Starting voting through the UI: `handleStartVoting` can only fire from
the rendered Start Voting button; when the button is not rendered no
request is made and the state is untouched. -/
def uiStartVoting (s : MMState) : MMState × Option StartVoteCall :=
  if startVotingButtonRendered s then
    (s, some ⟨s.meetingId, s.motionItemId⟩)
  else (s, none)

/-- A position as held by the election service: identity, owning meeting,
agenda-item identifier, name, open flag, poll id once closed. -/
structure Position where
  position_id : Nat
  meeting_id : String
  agenda_item_id : String
  position_name : String
  is_open : Bool
  poll_id : Option String
deriving DecidableEq

/-- A nomination: position, nominee username, accepted flag. -/
structure Nomination where
  position_id : Nat
  username : String
  accepted : Bool
deriving DecidableEq

/-- The accepted-nomination count the ElectionManager computes for a
position (`posNominations.filter(n => n.accepted).length`). -/
def acceptedCount (noms : List Nomination) : Nat :=
  (noms.filter (fun n => n.accepted)).length

/-- Whether the close-nominations control is disabled
(`disabled={acceptedCount < 2}`). -/
def closeButtonDisabled (noms : List Nomination) : Bool :=
  decide (acceptedCount noms < 2)

/-- `handleClosePosition`'s local update after the close call succeeds
with `result.poll_id`: the matching position becomes closed and carries
the returned poll id; every other position is untouched. -/
def handleClosePositionSuccess (prev : List Position) (positionId : Nat)
    (resultPollId : String) : List Position :=
  prev.map (fun p =>
    if p.position_id = positionId then
      { p with is_open := false, poll_id := some resultPollId }
    else p)

/-- The election service's position query, scoped to a
`(meeting_id, agenda_item_id)` pair — the GET `initializePositions`
issues first. -/
def positionsScoped (server : List Position) (meetingId agendaItemId : String) :
    List Position :=
  server.filter (fun p =>
    p.meeting_id = meetingId ∧ p.agenda_item_id = agendaItemId)

/-- The POST loop of `initializePositions`: create one open position per
requested name, the collaborator assigning fresh numeric ids. -/
def createPositions (server : List Position) (meetingId agendaItemId : String) :
    List String → List Position
  | [] => server
  | name :: names =>
    createPositions
      (server ++ [⟨server.length, meetingId, agendaItemId, name, true, none⟩])
      meetingId agendaItemId names

/-- `initializePositions` (ElectionManager): query the positions already
scoped to this `(meeting_id, agenda_item_id)`; if any exist, adopt them and
create nothing; only when none exist, create one position per name.
Returns the collaborator state afterwards and the names posted. -/
def initializePositions (server : List Position)
    (meetingId agendaItemId : String) (positionNames : List String) :
    List Position × List String :=
  let existing := positionsScoped server meetingId agendaItemId
  if existing.length > 0 then (server, [])
  else (createPositions server meetingId agendaItemId positionNames,
        positionNames)

/-- Token state of the identity layer: the access token currently held by
the Keycloak adapter, whether it is still fresh at use time, and the token
a refresh would install. -/
structure TokenState where
  heldToken : Option String
  heldFresh : Bool
  refreshedToken : String
deriving DecidableEq

/-- `KeycloakService.getToken`: read the currently held token. -/
def getToken (k : TokenState) : Option String :=
  k.heldToken

/-- `KeycloakService.updateToken`: a no-op when the held token is still
valid; otherwise install the refreshed token. -/
def updateToken (k : TokenState) : TokenState :=
  if k.heldFresh then k
  else { k with heldToken := some k.refreshedToken, heldFresh := true }

/-- `ApiService.getAuthToken`: refresh the token first
(`await KeycloakService.updateToken(5)`), then read it. -/
def getAuthToken (k : TokenState) : TokenState × Option String :=
  let k2 := updateToken k
  (k2, getToken k2)

/-- The credential `SocketService.connect` places in the handshake's auth
payload: it reads `KeycloakService.getToken()` directly, without a refresh
step. -/
def connectAuthToken (k : TokenState) : Option String :=
  getToken k

/-- A ranked-ballot operation reachable from the rendered ballot:
toggling an option (the add buttons list the poll's unranked options, the
remove button a ranked one) or an adjacent swap. -/
inductive RankedOp where
  | select (o : String)
  | rankUp (i : Nat)
  | rankDown (i : Nat)
deriving DecidableEq

/-- Apply one ranked-ballot operation.  The add and remove buttons are
rendered only for options of the poll, so a select outside the option
list cannot be invoked and is the identity. -/
def applyRankedOp (options : List String) (ranking : List String) :
    RankedOp → List String
  | RankedOp.select o =>
    if options.contains o then handleRankedVote o ranking else ranking
  | RankedOp.rankUp i => moveRankUp ranking i
  | RankedOp.rankDown i => moveRankDown ranking i

/-- Run a sequence of ranked-ballot operations. -/
def runRankedOps (options : List String) (ranking : List String)
    (ops : List RankedOp) : List String :=
  ops.foldl (applyRankedOp options) ranking

/-! ## Motion event merge -/

/-- One `motion added` event preserves distinctness of the uuids in the
local motion list. -/
theorem handleMotionAdded_nodup (mid : String) (e : MotionEvent)
    (prev : List Motion) (h : (motionUuids prev).Nodup) :
    (motionUuids (handleMotionAdded mid e prev)).Nodup := by
  unfold handleMotionAdded
  split
  · split
    · exact h
    · rename_i hany
      simp only [motionUuids, List.map_append]
      rw [List.nodup_append]
      refine ⟨h, List.nodup_singleton _, ?_⟩
      intro u hu hu1
      simp only [List.map_cons, List.map_nil, List.mem_singleton] at hu1
      subst hu1
      apply hany
      rw [List.any_eq_true]
      simp only [motionUuids, List.mem_map] at hu
      obtain ⟨m, hm, hmu⟩ := hu
      exact ⟨m, hm, by simp [hmu]⟩
  · exact h

/-- C1: delivering `motion added` events is an idempotent merge keyed by
uuid — an event whose motion uuid is already in the list leaves the list
unchanged, a matching event with a new uuid appends the motion once, and
any sequence of (possibly duplicated, reordered) events keeps exactly one
entry per uuid in an initially duplicate-free list. -/
theorem motion_added_idempotent_merge :
    (∀ (mid : String) (e : MotionEvent) (prev : List Motion),
        ((∃ m ∈ prev, m.motion_uuid = e.motion.motion_uuid) →
          handleMotionAdded mid e prev = prev) ∧
        (e.motion_item_id = mid →
          (∀ m ∈ prev, m.motion_uuid ≠ e.motion.motion_uuid) →
          handleMotionAdded mid e prev = prev ++ [e.motion])) ∧
    (∀ (mid : String) (es : List MotionEvent) (init : List Motion),
        (motionUuids init).Nodup →
        (motionUuids
          (es.foldl (fun acc e => handleMotionAdded mid e acc) init)).Nodup) := by
  constructor
  · intro mid e prev
    constructor
    · intro ⟨m, hm, hu⟩
      unfold handleMotionAdded
      split
      · have : prev.any (fun m => m.motion_uuid == e.motion.motion_uuid) = true := by
          rw [List.any_eq_true]
          exact ⟨m, hm, by simp [hu]⟩
        simp [this]
      · rfl
    · intro hitem hnone
      unfold handleMotionAdded
      rw [if_pos hitem]
      have : prev.any (fun m => m.motion_uuid == e.motion.motion_uuid) = false := by
        rw [List.any_eq_false]
        intro m hm
        simp [hnone m hm]
      simp [this]
  · intro mid es
    induction es with
    | nil => intro init h; exact h
    | cons e es ih =>
      intro init h
      exact ih _ (handleMotionAdded_nodup mid e init h)

/-- Witness for C1: three events (one duplicated) against the empty list
leave a duplicate-free uuid list. -/
theorem motion_added_idempotent_merge_witness :
    (motionUuids
      ([⟨"item1", ⟨"u1", "alice", "text a"⟩⟩,
        ⟨"item1", ⟨"u1", "alice", "text a"⟩⟩,
        ⟨"item1", ⟨"u2", "bob", "text b"⟩⟩].foldl
        (fun acc e => handleMotionAdded "item1" e acc) [])).Nodup :=
  motion_added_idempotent_merge.2 "item1"
    [⟨"item1", ⟨"u1", "alice", "text a"⟩⟩,
     ⟨"item1", ⟨"u1", "alice", "text a"⟩⟩,
     ⟨"item1", ⟨"u2", "bob", "text b"⟩⟩] [] (by simp [motionUuids])

/-- C2: a motion is reported as passed iff its yes tally strictly exceeds
its no tally (missing tallies count as 0); in particular yes 3 / no 2 /
abstain 1 passes and the 2–2 tie fails. -/
theorem didMotionPass_strict_majority :
    (∀ r : PollHistoryRecord,
        didMotionPass r = true ↔
          lookupResult r.results "no" < lookupResult r.results "yes") ∧
    didMotionPass ⟨"m1", [("yes", 3), ("no", 2), ("abstain", 1)]⟩ = true ∧
    didMotionPass ⟨"m2", [("yes", 2), ("no", 2)]⟩ = false := by
  refine ⟨fun r => ?_, by decide, by decide⟩
  simp [didMotionPass]

/-- C9: a `motion updated` event only ever replaces the entry whose uuid
matches the event's motion: the uuid sequence (hence the set of uuids and
the order and length of the list) is unchanged, non-matching entries are
untouched, a matching entry becomes the event's motion, and when no entry
matches the list is exactly unchanged — an update never inserts. -/
theorem motion_updated_frame :
    ∀ (mid : String) (e : MotionEvent) (prev : List Motion),
      motionUuids (handleMotionUpdated mid e prev) = motionUuids prev ∧
      (handleMotionUpdated mid e prev).length = prev.length ∧
      (∀ (i : Nat) (m : Motion), prev[i]? = some m →
          m.motion_uuid ≠ e.motion.motion_uuid →
          (handleMotionUpdated mid e prev)[i]? = some m) ∧
      (∀ (i : Nat) (m : Motion), prev[i]? = some m →
          m.motion_uuid = e.motion.motion_uuid → e.motion_item_id = mid →
          (handleMotionUpdated mid e prev)[i]? = some e.motion) ∧
      ((∀ m ∈ prev, m.motion_uuid ≠ e.motion.motion_uuid) →
          handleMotionUpdated mid e prev = prev) := by
  intro mid e prev
  refine ⟨?_, ?_, ?_, ?_, ?_⟩
  · unfold handleMotionUpdated
    split
    · simp only [motionUuids, List.map_map]
      apply List.map_congr_left
      intro m _
      simp only [Function.comp_apply]
      split
      · rename_i hu; exact hu.symm
      · rfl
    · rfl
  · unfold handleMotionUpdated
    split
    · exact List.length_map _ _
    · rfl
  · intro i m hm hne
    unfold handleMotionUpdated
    split
    · rw [List.getElem?_map, hm]
      simp [hne]
    · exact hm
  · intro i m hm hu hitem
    unfold handleMotionUpdated
    rw [if_pos hitem, List.getElem?_map, hm]
    simp [hu]
  · intro hnone
    unfold handleMotionUpdated
    split
    · have hmap : ∀ l : List Motion,
          (∀ m ∈ l, m.motion_uuid ≠ e.motion.motion_uuid) →
          l.map (fun m =>
            if m.motion_uuid = e.motion.motion_uuid then e.motion else m) = l := by
        intro l
        induction l with
        | nil => intro _; rfl
        | cons a t ih =>
          intro hl
          simp only [List.map_cons]
          rw [if_neg (hl a (List.mem_cons_self a t)),
            ih (fun m hm => hl m (List.mem_cons_of_mem a hm))]
      exact hmap prev hnone
    · rfl

/-- Witness for C9: an update for uuid u2 leaves the u1 entry alone,
rewrites the u2 entry, and keeps the uuid sequence. -/
theorem motion_updated_frame_witness :
    motionUuids
      (handleMotionUpdated "item1" ⟨"item1", ⟨"u2", "bob", "new text"⟩⟩
        [⟨"u1", "alice", "a"⟩, ⟨"u2", "bob", "old text"⟩]) =
      motionUuids [⟨"u1", "alice", "a"⟩, ⟨"u2", "bob", "old text"⟩] ∧
    (handleMotionUpdated "item1" ⟨"item1", ⟨"u2", "bob", "new text"⟩⟩
      [⟨"u1", "alice", "a"⟩, ⟨"u2", "bob", "old text"⟩])[0]? =
      some ⟨"u1", "alice", "a"⟩ ∧
    (handleMotionUpdated "item1" ⟨"item1", ⟨"u2", "bob", "new text"⟩⟩
      [⟨"u1", "alice", "a"⟩, ⟨"u2", "bob", "old text"⟩])[1]? =
      some ⟨"u2", "bob", "new text"⟩ := by
  have h := motion_updated_frame "item1" ⟨"item1", ⟨"u2", "bob", "new text"⟩⟩
    [⟨"u1", "alice", "a"⟩, ⟨"u2", "bob", "old text"⟩]
  exact ⟨h.1,
    h.2.2.1 0 ⟨"u1", "alice", "a"⟩ rfl (by decide),
    h.2.2.2.1 1 ⟨"u2", "bob", "old text"⟩ rfl rfl rfl⟩

/-! ## Vote casting engine -/

/-- C3: submitting an empty ballot — no selected option on a single-choice
poll, an empty ranking on a ranked poll — is rejected locally: no vote
goes over the network, an inline error is set, and the poll and ballot
state (selection, ranking, has-voted flag) are unchanged. -/
theorem submit_empty_ballot_rejected_locally :
    ∀ (s : VMState) (p : Poll) (serverOk : Bool),
      s.poll = some p →
      ((p.pollType = PollType.single ∧ s.selectedOption = "") ∨
        (p.pollType = PollType.ranked ∧ s.rankedOptions = [])) →
      (handleSubmitVote s serverOk).2 = none ∧
      (handleSubmitVote s serverOk).1.error ≠ "" ∧
      (handleSubmitVote s serverOk).1.poll = s.poll ∧
      (handleSubmitVote s serverOk).1.selectedOption = s.selectedOption ∧
      (handleSubmitVote s serverOk).1.rankedOptions = s.rankedOptions ∧
      (handleSubmitVote s serverOk).1.hasVoted = s.hasVoted := by
  intro s p serverOk hp hcase
  rcases hcase with ⟨ht, he⟩ | ⟨ht, he⟩ <;>
    simp [handleSubmitVote, hp, ht, he]

/-- A concrete single-choice state with no selection. -/
def emptyBallotState : VMState :=
  { poll := some ⟨"meet1", PollType.single, ["yes", "no", "abstain"]⟩
    loading := false
    error := ""
    selectedOption := ""
    rankedOptions := []
    hasVoted := false
    submitting := false }

/-- Witness for C3: the concrete empty single-choice ballot is rejected
with no network call and unchanged ballot state. -/
theorem submit_empty_ballot_rejected_locally_witness :
    (handleSubmitVote emptyBallotState true).2 = none ∧
    (handleSubmitVote emptyBallotState true).1.error ≠ "" ∧
    (handleSubmitVote emptyBallotState true).1.poll = emptyBallotState.poll ∧
    (handleSubmitVote emptyBallotState true).1.selectedOption =
      emptyBallotState.selectedOption ∧
    (handleSubmitVote emptyBallotState true).1.rankedOptions =
      emptyBallotState.rankedOptions ∧
    (handleSubmitVote emptyBallotState true).1.hasVoted =
      emptyBallotState.hasVoted :=
  submit_empty_ballot_rejected_locally emptyBallotState
    ⟨"meet1", PollType.single, ["yes", "no", "abstain"]⟩ true rfl
    (Or.inl ⟨rfl, rfl⟩)

/-- From a loaded, has-voted state every ballot event is a no-op: the
submitted view is showing and no handler is reachable. -/
theorem vmStep_submitted_frozen (s : VMState) (p : Poll)
    (hp : s.poll = some p) (hl : s.loading = false) (hv : s.hasVoted = true) :
    renderVM s = VMView.submittedView ∧ ∀ e, vmStep s e = (s, none) := by
  have hr : renderVM s = VMView.submittedView := by
    simp [renderVM, hl, hp, hv]
  refine ⟨hr, fun e => ?_⟩
  simp [vmStep, hr]

/-- C4: once the engine records a vote for the loaded poll — whether from
the has-voted probe performed at load or from a successful submission —
it renders the terminal submitted view, and no sequence of further UI
events can reach `submitVote` again: no vote payload is ever sent and the
state is unchanged. -/
theorem vote_submission_at_most_once :
    (∀ (p : Poll) (s : VMState), (loadPoll p true s).hasVoted = true) ∧
    (∀ s : VMState, (handleSubmitVote s true).2.isSome = true →
        (handleSubmitVote s true).1.hasVoted = true) ∧
    (∀ (s : VMState) (p : Poll) (es : List VMEvent),
        s.poll = some p → s.loading = false → s.hasVoted = true →
        renderVM s = VMView.submittedView ∧
        vmRun s es = (s, [])) := by
  refine ⟨fun p s => rfl, ?_, ?_⟩
  · intro s h
    unfold handleSubmitVote at h ⊢
    cases hp : s.poll with
    | none => simp only [hp] at h; simp at h
    | some poll =>
      simp only [hp] at h ⊢
      by_cases ht : poll.pollType = PollType.single
      · simp only [if_pos ht] at h ⊢
        by_cases hsel : s.selectedOption = ""
        · simp only [if_pos hsel] at h; simp at h
        · simp only [if_neg hsel] at h ⊢
          simp
      · simp only [if_neg ht] at h ⊢
        by_cases hr : s.rankedOptions = []
        · simp only [if_pos hr] at h; simp at h
        · simp only [if_neg hr] at h ⊢
          simp
  · intro s p es hp hl hv
    obtain ⟨hr, hstep⟩ := vmStep_submitted_frozen s p hp hl hv
    refine ⟨hr, ?_⟩
    induction es with
    | nil => rfl
    | cons e es ih =>
      simp only [vmRun, hstep e]
      simp [ih]

/-- A concrete loaded state whose has-voted probe answered true. -/
def submittedState : VMState :=
  loadPoll ⟨"meet1", PollType.single, ["yes", "no"]⟩ true
    { poll := none, loading := true, error := "", selectedOption := ""
      rankedOptions := [], hasVoted := false, submitting := false }

/-- Witness for C4: after the probe answers true, pressing submit (or any
other ballot event) sends nothing and leaves the terminal view showing. -/
theorem vote_submission_at_most_once_witness :
    renderVM submittedState = VMView.submittedView ∧
    vmRun submittedState
      [VMEvent.pressSubmit true, VMEvent.selectSingle "yes",
        VMEvent.pressSubmit true] = (submittedState, []) :=
  vote_submission_at_most_once.2.2 submittedState
    ⟨"meet1", PollType.single, ["yes", "no"]⟩
    [VMEvent.pressSubmit true, VMEvent.selectSingle "yes",
      VMEvent.pressSubmit true] rfl rfl rfl

/-! ## Motion sub-session: start voting -/

/-- C7: for a motion item whose motion list is empty the Start Voting
control is not rendered, so starting voting cannot be invoked through the
UI and no request reaches the start-voting endpoint; the state is
untouched. -/
theorem start_voting_zero_motions_no_call :
    ∀ s : MMState, s.motions = [] →
      startVotingButtonRendered s = false ∧ uiStartVoting s = (s, none) := by
  intro s h
  have hb : startVotingButtonRendered s = false := by
    simp [startVotingButtonRendered, h]
  exact ⟨hb, by simp [uiStartVoting, hb]⟩

/-- Witness for C7: a manager on a motion item with no motions gets no
start-voting request. -/
theorem start_voting_zero_motions_no_call_witness :
    startVotingButtonRendered
      ⟨"meet1", "item1", [], none, true, false, none⟩ = false ∧
    uiStartVoting ⟨"meet1", "item1", [], none, true, false, none⟩ =
      (⟨"meet1", "item1", [], none, true, false, none⟩, none) :=
  start_voting_zero_motions_no_call
    ⟨"meet1", "item1", [], none, true, false, none⟩ rfl

/-! ## Election sub-session -/

/-- C5: the close-nominations control is disabled exactly while the
accepted-nomination count is below 2 — so it cannot be invoked below the
threshold and is enabled at exactly 2 — and a successful close rewrites
precisely the matching position to closed with the returned poll id,
leaving every other position untouched. -/
theorem close_position_threshold :
    (∀ noms : List Nomination,
        closeButtonDisabled noms = true ↔ acceptedCount noms < 2) ∧
    (∀ noms : List Nomination,
        acceptedCount noms = 2 → closeButtonDisabled noms = false) ∧
    (∀ (prev : List Position) (pid : Nat) (pollId : String) (i : Nat)
        (p : Position), prev[i]? = some p →
        (handleClosePositionSuccess prev pid pollId)[i]? =
          some (if p.position_id = pid then
                  { p with is_open := false, poll_id := some pollId }
                else p)) := by
  refine ⟨fun noms => by simp [closeButtonDisabled], fun noms h => ?_, ?_⟩
  · simp [closeButtonDisabled, h]
  · intro prev pid pollId i p hp
    unfold handleClosePositionSuccess
    rw [List.getElem?_map, hp]
    rfl

/-- Two accepted nominations for position 1. -/
def twoAccepted : List Nomination :=
  [⟨1, "alice", true⟩, ⟨1, "bob", true⟩]

/-- Witness for C5: with alice and bob accepted the control is enabled,
and the successful close flips position 1 to closed with the returned
poll id while position 2 stays open. -/
theorem close_position_threshold_witness :
    closeButtonDisabled twoAccepted = false ∧
    (handleClosePositionSuccess
      [⟨1, "meet1", "meet1-agenda-1", "President", true, none⟩,
       ⟨2, "meet1", "meet1-agenda-1", "Treasurer", true, none⟩] 1 "poll-9")[0]? =
      some ⟨1, "meet1", "meet1-agenda-1", "President", false, some "poll-9"⟩ ∧
    (handleClosePositionSuccess
      [⟨1, "meet1", "meet1-agenda-1", "President", true, none⟩,
       ⟨2, "meet1", "meet1-agenda-1", "Treasurer", true, none⟩] 1 "poll-9")[1]? =
      some ⟨2, "meet1", "meet1-agenda-1", "Treasurer", true, none⟩ := by
  refine ⟨close_position_threshold.2.1 twoAccepted rfl, ?_, ?_⟩
  · have h := close_position_threshold.2.2
      [⟨1, "meet1", "meet1-agenda-1", "President", true, none⟩,
       ⟨2, "meet1", "meet1-agenda-1", "Treasurer", true, none⟩] 1 "poll-9" 0
      ⟨1, "meet1", "meet1-agenda-1", "President", true, none⟩ rfl
    simpa using h
  · have h := close_position_threshold.2.2
      [⟨1, "meet1", "meet1-agenda-1", "President", true, none⟩,
       ⟨2, "meet1", "meet1-agenda-1", "Treasurer", true, none⟩] 1 "poll-9" 1
      ⟨2, "meet1", "meet1-agenda-1", "Treasurer", true, none⟩ rfl
    simpa using h

/-- Creating positions for a `(meeting, agenda item)` pair grows that
pair's scoped position count by exactly the number of requested names. -/
theorem positionsScoped_createPositions_length (mid aid : String) :
    ∀ (names : List String) (server : List Position),
      (positionsScoped (createPositions server mid aid names) mid aid).length =
        (positionsScoped server mid aid).length + names.length := by
  intro names
  induction names with
  | nil => intro server; simp [createPositions]
  | cons n rest ih =>
    intro server
    rw [createPositions, ih]
    simp [positionsScoped, List.filter_append]
    omega

/-- C6: election initialization is idempotent — when positions scoped to
the `(meeting_id, agenda_item_id)` pair already exist it adopts them,
creating nothing and leaving the collaborator untouched; and re-running
the initialization after any first run changes nothing and posts no
position, so re-entering the agenda item never duplicates positions. -/
theorem initialize_positions_idempotent :
    (∀ (server : List Position) (mid aid : String) (names : List String),
        0 < (positionsScoped server mid aid).length →
        initializePositions server mid aid names = (server, [])) ∧
    (∀ (server : List Position) (mid aid : String) (names : List String),
        initializePositions
          (initializePositions server mid aid names).1 mid aid names =
          ((initializePositions server mid aid names).1, [])) := by
  have hfirst : ∀ (server : List Position) (mid aid : String)
      (names : List String),
      0 < (positionsScoped server mid aid).length →
      initializePositions server mid aid names = (server, []) := by
    intro server mid aid names h
    unfold initializePositions
    simp [h]
  refine ⟨hfirst, ?_⟩
  intro server mid aid names
  by_cases h : 0 < (positionsScoped server mid aid).length
  · rw [hfirst server mid aid names h]
    exact hfirst server mid aid names h
  · have hs1 : (initializePositions server mid aid names).1 =
        createPositions server mid aid names := by
      unfold initializePositions
      simp [h]
    rw [hs1]
    cases names with
    | nil =>
      show initializePositions server mid aid [] = (server, [])
      unfold initializePositions
      simp [h, createPositions]
    | cons n rest =>
      apply hfirst
      rw [positionsScoped_createPositions_length]
      simp

/-- Witness for C6: initializing President and Treasurer on an empty
collaborator and initializing again changes nothing the second time; and
a collaborator already holding a scoped position is adopted as is. -/
theorem initialize_positions_idempotent_witness :
    initializePositions
      (initializePositions [] "meet1" "meet1-agenda-1"
        ["President", "Treasurer"]).1 "meet1" "meet1-agenda-1"
      ["President", "Treasurer"] =
      ((initializePositions [] "meet1" "meet1-agenda-1"
        ["President", "Treasurer"]).1, []) ∧
    initializePositions
      [⟨0, "meet1", "meet1-agenda-1", "President", true, none⟩]
      "meet1" "meet1-agenda-1" ["President", "Treasurer"] =
      ([⟨0, "meet1", "meet1-agenda-1", "President", true, none⟩], []) :=
  ⟨initialize_positions_idempotent.2 [] "meet1" "meet1-agenda-1"
      ["President", "Treasurer"],
    initialize_positions_idempotent.1
      [⟨0, "meet1", "meet1-agenda-1", "President", true, none⟩]
      "meet1" "meet1-agenda-1" ["President", "Treasurer"] (by decide)⟩

/-! ## Access tokens at channel connect -/

/-- A concrete token state whose held token is stale at connect time. -/
def staleTokenState : TokenState :=
  { heldToken := some "expired-token"
    heldFresh := false
    refreshedToken := "fresh-token" }

/-- C8 counterexample: with a stale held token, the channel's connect
handshake carries the stale token itself, not the token a refresh-first
read (the HTTP layer's `getAuthToken`) would produce — so the credential
sent with the handshake can be a stale token. -/
theorem socket_connect_sends_stale_token :
    staleTokenState.heldFresh = false ∧
    connectAuthToken staleTokenState = some "expired-token" ∧
    connectAuthToken staleTokenState ≠
      some staleTokenState.refreshedToken ∧
    connectAuthToken staleTokenState ≠ (getAuthToken staleTokenState).2 := by
  refine ⟨rfl, rfl, ?_, ?_⟩ <;>
    simp [connectAuthToken, getToken, getAuthToken, updateToken,
      staleTokenState]

/-- C8 amended: only the HTTP request layer refreshes a stale token before
use — `getAuthToken` refreshes and then always reads a fresh token — while
the real-time channel's connect reads the held token as is, refreshing
nothing, so a stale held token is sent stale with the handshake. -/
theorem channel_connect_token_unrefreshed :
    ∀ k : TokenState,
      connectAuthToken k = k.heldToken ∧
      (updateToken k).heldFresh = true ∧
      (getAuthToken k).2 =
        (if k.heldFresh then k.heldToken else some k.refreshedToken) := by
  intro k
  refine ⟨rfl, ?_, ?_⟩ <;>
    by_cases h : k.heldFresh <;>
      simp [updateToken, getAuthToken, getToken, h]

/-! ## Ranked ballot invariants -/

/-- An adjacent-swap down is a permutation of the ranking. -/
theorem moveRankDown_perm : ∀ (i : Nat) (l : List String),
    (moveRankDown l i).Perm l := by
  intro i
  induction i with
  | zero =>
    intro l
    match l with
    | [] => simp [moveRankDown]
    | [a] => simp [moveRankDown]
    | a :: b :: t =>
      have h : moveRankDown (a :: b :: t) 0 = b :: a :: t := by
        simp [moveRankDown, List.set]
      rw [h]
      exact List.Perm.swap a b t
  | succ i ih =>
    intro l
    match l with
    | [] => simp [moveRankDown]
    | a :: t =>
      by_cases h : t.length ≤ i + 1
      · have h1 : moveRankDown (a :: t) (i + 1) = a :: t := by
          unfold moveRankDown
          rw [if_pos (by simp; omega)]
        rw [h1]
      · have h1 : moveRankDown (a :: t) (i + 1) = a :: moveRankDown t i := by
          unfold moveRankDown
          rw [if_neg (by simp; omega), if_neg (by simp; omega)]
          simp [List.set]
        rw [h1]
        exact (ih t).cons a

/-- A non-trivial swap up at `i` is the swap down at `i - 1`. -/
theorem moveRankUp_perm (l : List String) (i : Nat) :
    (moveRankUp l i).Perm l := by
  by_cases h : i = 0 ∨ l.length ≤ i
  · simp [moveRankUp, h]
  · push_neg at h
    obtain ⟨h0, hlen⟩ := h
    have heq : moveRankUp l i = moveRankDown l (i - 1) := by
      unfold moveRankUp moveRankDown
      rw [if_neg (by omega), if_neg (by omega)]
      have hi : i - 1 + 1 = i := by omega
      rw [hi]
    rw [heq]
    exact moveRankDown_perm (i - 1) l

/-- Toggling keeps the ranking duplicate-free. -/
theorem handleRankedVote_nodup (o : String) (l : List String)
    (h : l.Nodup) : (handleRankedVote o l).Nodup := by
  unfold handleRankedVote
  split
  · exact h.filter _
  · rename_i hc
    rw [List.nodup_append]
    refine ⟨h, List.nodup_singleton _, ?_⟩
    intro x hx hx1
    simp only [List.mem_singleton] at hx1
    subst hx1
    exact hc (by simpa using hx)

/-- Toggling introduces no element beyond the toggled option. -/
theorem handleRankedVote_subset (o : String) (l : List String) :
    ∀ x ∈ handleRankedVote o l, x ∈ l ∨ x = o := by
  intro x hx
  unfold handleRankedVote at hx
  split at hx
  · exact Or.inl (List.mem_of_mem_filter hx)
  · rcases List.mem_append.1 hx with h | h
    · exact Or.inl h
    · simp only [List.mem_singleton] at h
      exact Or.inr h

/-- One ballot operation preserves the ranking invariant: no duplicates,
all entries drawn from the poll's options. -/
theorem applyRankedOp_inv (options l : List String) (op : RankedOp)
    (hn : l.Nodup) (hs : ∀ x ∈ l, x ∈ options) :
    (applyRankedOp options l op).Nodup ∧
      ∀ x ∈ applyRankedOp options l op, x ∈ options := by
  cases op with
  | select o =>
    simp only [applyRankedOp]
    split
    · rename_i ho
      refine ⟨handleRankedVote_nodup o l hn, fun x hx => ?_⟩
      rcases handleRankedVote_subset o l x hx with h | h
      · exact hs x h
      · subst h
        simpa using ho
    · exact ⟨hn, hs⟩
  | rankUp i =>
    simp only [applyRankedOp]
    have hp := moveRankUp_perm l i
    exact ⟨hp.nodup_iff.2 hn, fun x hx => hs x (hp.mem_iff.1 hx)⟩
  | rankDown i =>
    simp only [applyRankedOp]
    have hp := moveRankDown_perm i l
    exact ⟨hp.nodup_iff.2 hn, fun x hx => hs x (hp.mem_iff.1 hx)⟩

/-- The invariant holds along any operation sequence. -/
theorem runRankedOps_inv (options : List String) :
    ∀ (ops : List RankedOp) (l : List String),
      l.Nodup → (∀ x ∈ l, x ∈ options) →
      (runRankedOps options l ops).Nodup ∧
        ∀ x ∈ runRankedOps options l ops, x ∈ options := by
  intro ops
  induction ops with
  | nil => intro l h1 h2; exact ⟨h1, h2⟩
  | cons op ops ih =>
    intro l h1 h2
    have h := applyRankedOp_inv options l op h1 h2
    exact ih _ h.1 h.2

/-- C10: from the empty ranking — indeed from any duplicate-free ranking
drawn from the poll's options — every sequence of ballot operations keeps
the ranking duplicate-free and inside the option list; swapping up at
index 0 and swapping down at the last index change nothing. -/
theorem ranked_ballot_invariant :
    (∀ (options ranking : List String) (ops : List RankedOp),
        ranking.Nodup → (∀ x ∈ ranking, x ∈ options) →
        (runRankedOps options ranking ops).Nodup ∧
          ∀ x ∈ runRankedOps options ranking ops, x ∈ options) ∧
    (∀ (options : List String) (ops : List RankedOp),
        (runRankedOps options [] ops).Nodup ∧
          ∀ x ∈ runRankedOps options [] ops, x ∈ options) ∧
    (∀ ranking : List String, moveRankUp ranking 0 = ranking) ∧
    (∀ ranking : List String,
        moveRankDown ranking (ranking.length - 1) = ranking) := by
  refine ⟨fun options ranking ops h1 h2 =>
      runRankedOps_inv options ops ranking h1 h2,
    fun options ops =>
      runRankedOps_inv options ops [] List.nodup_nil (by simp),
    fun ranking => by simp [moveRankUp],
    fun ranking => ?_⟩
  unfold moveRankDown
  rw [if_pos (by omega)]

/-- Witness for C10: a concrete interaction — add alice, add bob, swap,
toggle alice off, swap at the bottom — leaves a duplicate-free ranking. -/
theorem ranked_ballot_invariant_witness :
    (runRankedOps ["alice", "bob", "carol"] []
      [RankedOp.select "alice", RankedOp.select "bob", RankedOp.rankUp 1,
        RankedOp.select "alice", RankedOp.rankDown 0]).Nodup :=
  (ranked_ballot_invariant.1 ["alice", "bob", "carol"] []
    [RankedOp.select "alice", RankedOp.select "bob", RankedOp.rankUp 1,
      RankedOp.select "alice", RankedOp.rankDown 0]
    List.nodup_nil (by simp)).1

end VotingFrontend
